import Mathlib

/-!
Verification of the Logistics Pro backend (`src/server.js`).

The shipment routes of the Express server are embedded shallowly: the
`shipments` and `status_history` tables become lists of records inside an
explicit store state `DB`, each route handler becomes a state-passing
function, and `Date.now()` / SQL `CURRENT_TIMESTAMP` become a natural-number
clock carried in the state.  Every handler runs its SQL statements
sequentially without a transaction and maps any store error to an opaque
500 response, which the embedding mirrors: a statement that the store
rejects leaves the effects of the statements before it in place.
-/

namespace Logistics

/-- Authenticated caller as decoded from the JWT by the `authenticate`
middleware: `req.user` carries `userId` and `type`. -/
structure Principal where
  userId : Nat
  type : String
deriving DecidableEq

/-- A row of the `shipments` table.  Nullability follows the DDL: `status`
only has a default (no NOT NULL), so it is an `Option`; DECIMAL columns are
modelled as integers in hundredths. -/
structure Shipment where
  id : Nat
  tracking_number : String
  customer_name : String
  customer_phone : String
  customer_email : Option String
  origin : String
  destination : String
  service_type : String
  weight : Int
  cost : Int
  status : Option String
  company_id : Option Nat
  driver_id : Option Nat
  current_location : Option String
  notes : Option String
  created_at : Nat
  updated_at : Nat
deriving DecidableEq

/-- A row of the `status_history` table; `status` is NOT NULL there. -/
structure StatusEvent where
  id : Nat
  shipment_id : Nat
  status : String
  location : Option String
  notes : Option String
  updated_by : Option Nat
  created_at : Nat
deriving DecidableEq

/-- Store state: the two shipment-related tables, their SERIAL counters, and
the current clock. -/
structure DB where
  shipments : List Shipment
  status_history : List StatusEvent
  nextShipmentId : Nat
  nextEventId : Nat
  now : Nat
deriving DecidableEq

/-- The state right after `initDB` has created the empty tables. -/
def initDB : DB :=
  { shipments := [], status_history := [], nextShipmentId := 1, nextEventId := 1, now := 0 }

/-- Digit characters of JS `Number.prototype.toString(36)` followed by
`.toUpperCase()`: `0`-`9` then `A`-`Z`. -/
def base36Digit (n : Nat) : Char :=
  if n < 10 then Char.ofNat (48 + n) else Char.ofNat (55 + n)

/-- Digit accumulator for base-36 printing.  The first argument is fuel that
only makes the recursion structural; it is always sufficient. -/
def toBase36Go : Nat → Nat → List Char → List Char
  | 0, _, acc => acc
  | fuel + 1, n, acc =>
    if n < 36 then base36Digit n :: acc
    else toBase36Go fuel (n / 36) (base36Digit (n % 36) :: acc)

/-- JS `n.toString(36).toUpperCase()` for a natural number. -/
def toBase36 (n : Nat) : String := String.mk (toBase36Go (n + 1) n [])

/-- Tracking-number generation in the create handler:
`'SH' + Date.now().toString(36).toUpperCase()`. -/
def genTracking (now : Nat) : String := "SH" ++ toBase36 now

/-- JSON body of `POST /api/shipments`; a field absent from the request is
`none` (JS `undefined`, sent to the store as SQL NULL). -/
structure CreateBody where
  customer_name : Option String
  customer_phone : Option String
  customer_email : Option String
  origin : Option String
  destination : Option String
  service_type : Option String
  weight : Option Int
  cost : Option Int
  notes : Option String
deriving DecidableEq

/-- JSON body of `PUT /api/shipments/:id/status`. -/
structure UpdateBody where
  status : Option String
  location : Option String
  notes : Option String
deriving DecidableEq

/-- Outcome of the create handler: 201 with the inserted row, or the catch-all
500 `Server error` response. -/
inductive CreateResult where
  | created : Shipment → CreateResult
  | serverError : CreateResult
deriving DecidableEq

/-- Outcome of the status-update handler: 200, 404 `Shipment not found`, or
the catch-all 500 `Server error` response. -/
inductive UpdateResult where
  | ok : UpdateResult
  | notFound : UpdateResult
  | serverError : UpdateResult
deriving DecidableEq

/-- True when the INSERT into `shipments` would violate one of the NOT NULL
column constraints; the handler itself checks nothing before inserting. -/
def missingRequired (b : CreateBody) : Bool :=
  b.customer_name.isNone || b.customer_phone.isNone || b.origin.isNone ||
    b.destination.isNone || b.service_type.isNone || b.weight.isNone || b.cost.isNone

/-- True when the INSERT would violate the UNIQUE constraint on
`tracking_number`. -/
def hasTracking (db : DB) (tn : String) : Bool :=
  db.shipments.any fun s => s.tracking_number == tn

/-- The row the create handler INSERTs (the `getD` defaults are only reached
when the guarded NOT NULL violation did not fire). -/
def newShipment (db : DB) (p : Principal) (b : CreateBody) : Shipment :=
  { id := db.nextShipmentId
    tracking_number := genTracking db.now
    customer_name := b.customer_name.getD ""
    customer_phone := b.customer_phone.getD ""
    customer_email := b.customer_email
    origin := b.origin.getD ""
    destination := b.destination.getD ""
    service_type := b.service_type.getD ""
    weight := b.weight.getD 0
    cost := b.cost.getD 0
    status := some "received"
    company_id := some p.userId
    driver_id := none
    current_location := none
    notes := b.notes
    created_at := db.now
    updated_at := db.now }

/-- The initial history row the create handler INSERTs: status `received`,
location the request's origin, fixed note, actor the caller. -/
def initialEvent (db : DB) (p : Principal) (b : CreateBody) : StatusEvent :=
  { id := db.nextEventId
    shipment_id := db.nextShipmentId
    status := "received"
    location := b.origin
    notes := some "Shipment received"
    updated_by := some p.userId
    created_at := db.now }

/-- `POST /api/shipments`: generate a tracking number from the clock, INSERT
the shipment row, then INSERT the initial history event as a second, separate
statement.  There is no transaction and no rollback, so when the second
statement fails the already-inserted row stays while the handler answers 500;
`historyOk` says whether the store accepts that second INSERT. -/
def createShipment (db : DB) (p : Principal) (b : CreateBody) (historyOk : Bool) :
    CreateResult × DB :=
  if missingRequired b then (.serverError, db)
  else if hasTracking db (genTracking db.now) then (.serverError, db)
  else
    let s := newShipment db p b
    let db1 : DB :=
      { db with shipments := db.shipments ++ [s], nextShipmentId := db.nextShipmentId + 1 }
    if historyOk then
      (.created s,
        { db1 with status_history := db1.status_history ++ [initialEvent db p b],
                   nextEventId := db.nextEventId + 1 })
    else (.serverError, db1)

/-- Event order produced by `ORDER BY created_at ASC`. -/
def evLE (a b : StatusEvent) : Prop := a.created_at ≤ b.created_at

instance : DecidableRel evLE := fun a b => Nat.decLe a.created_at b.created_at

instance : IsTotal StatusEvent evLE := ⟨fun a b => Nat.le_total a.created_at b.created_at⟩

instance : IsTrans StatusEvent evLE := ⟨fun _ _ _ h h' => Nat.le_trans h h'⟩

/-- Shipment order produced by `ORDER BY created_at DESC`. -/
def shipGE (a b : Shipment) : Prop := b.created_at ≤ a.created_at

instance : DecidableRel shipGE := fun a b => Nat.decLe b.created_at a.created_at

instance : IsTotal Shipment shipGE := ⟨fun a b => Nat.le_total b.created_at a.created_at⟩

instance : IsTrans Shipment shipGE := ⟨fun _ _ _ h h' => Nat.le_trans h' h⟩

/-- `SELECT * FROM status_history WHERE shipment_id = $1 ORDER BY created_at ASC`. -/
def listFor (db : DB) (sid : Nat) : List StatusEvent :=
  List.insertionSort evLE (db.status_history.filter fun e => e.shipment_id == sid)

/-- A shipment row with its history attached, as returned by the two
single-shipment GET handlers. -/
structure TrackedShipment where
  shipment : Shipment
  status_history : List StatusEvent
deriving DecidableEq

/-- `GET /api/shipments`: role-dependent WHERE clause, then
`ORDER BY created_at DESC`. -/
def listShipments (db : DB) (p : Principal) : List Shipment :=
  let rows :=
    if p.type = "company" then db.shipments.filter fun s => s.company_id == some p.userId
    else if p.type = "driver" then db.shipments.filter fun s => s.driver_id == some p.userId
    else db.shipments
  List.insertionSort shipGE rows

/-- `GET /api/shipments/:id`: the row plus its chronological history, or 404. -/
def getShipment (db : DB) (sid : Nat) : Option TrackedShipment :=
  match db.shipments.find? (fun s => s.id == sid) with
  | none => none
  | some s => some { shipment := s, status_history := listFor db sid }

/-- `GET /api/shipments/track/:trackingNumber` (public, no authentication):
the row plus its chronological history, or 404. -/
def trackShipment (db : DB) (tn : String) : Option TrackedShipment :=
  match db.shipments.find? (fun s => s.tracking_number == tn) with
  | none => none
  | some s => some { shipment := s, status_history := listFor db s.id }

/-- Effect of the UPDATE statement of the status handler on one row: the row
with matching id gets the body's status and location and a fresh
`updated_at`; other rows are untouched. -/
def updRow (now : Nat) (sid : Nat) (b : UpdateBody) (s : Shipment) : Shipment :=
  if s.id == sid then
    { s with status := b.status, current_location := b.location, updated_at := now }
  else s

/-- The history row the status handler INSERTs. -/
def updEvent (db : DB) (p : Principal) (sid : Nat) (st : String) (b : UpdateBody) :
    StatusEvent :=
  { id := db.nextEventId
    shipment_id := sid
    status := st
    location := b.location
    notes := b.notes
    updated_by := some p.userId
    created_at := db.now }

/-- `PUT /api/shipments/:id/status`: SELECT the row (404 when absent), UPDATE
`status`/`current_location`/`updated_at`, then INSERT the history event as a
second, separate statement.  `shipments.status` is nullable, so the UPDATE
succeeds even when the body carries no `status`; `status_history.status` is
NOT NULL, so the INSERT then fails and the handler answers 500 with the row
already rewritten.  `historyOk` says whether the store accepts the INSERT. -/
def updateShipmentStatus (db : DB) (p : Principal) (sid : Nat) (b : UpdateBody)
    (historyOk : Bool) : UpdateResult × DB :=
  match db.shipments.find? (fun s => s.id == sid) with
  | none => (.notFound, db)
  | some _ =>
    let db1 : DB := { db with shipments := db.shipments.map (updRow db.now sid b) }
    match b.status, historyOk with
    | some st, true =>
      (.ok,
        { db1 with status_history := db1.status_history ++ [updEvent db p sid st b],
                   nextEventId := db.nextEventId + 1 })
    | _, _ => (.serverError, db1)

/-- Wall-clock advance between requests. -/
def tick (db : DB) (d : Nat) : DB := { db with now := db.now + d }

/-- One request against the store, or the clock advancing. -/
inductive Step : DB → DB → Prop where
  | create (db : DB) (p : Principal) (b : CreateBody) (historyOk : Bool) :
      Step db (createShipment db p b historyOk).2
  | update (db : DB) (p : Principal) (sid : Nat) (b : UpdateBody) (historyOk : Bool) :
      Step db (updateShipmentStatus db p sid b historyOk).2
  | advance (db : DB) (d : Nat) : Step db (tick db d)

/-- Store states reachable from the freshly initialized store. -/
inductive Reachable : DB → Prop where
  | init : Reachable initDB
  | step {db db' : DB} : Reachable db → Step db db' → Reachable db'

/-- Invariants every request preserves: the SERIAL counters dominate all ids,
the PRIMARY KEY / UNIQUE / FOREIGN KEY constraints hold, no stored timestamp
exceeds the clock, and the history table is already in chronological order. -/
structure WF (db : DB) : Prop where
  ids_lt : ∀ s ∈ db.shipments, s.id < db.nextShipmentId
  ids_distinct : db.shipments.Pairwise fun a b => a.id ≠ b.id
  tns_distinct : db.shipments.Pairwise fun a b => a.tracking_number ≠ b.tracking_number
  ship_time : ∀ s ∈ db.shipments, s.created_at ≤ db.now ∧ s.updated_at ≤ db.now
  ev_sid_lt : ∀ e ∈ db.status_history, e.shipment_id < db.nextShipmentId
  ev_time : ∀ e ∈ db.status_history, e.created_at ≤ db.now
  hist_sorted : db.status_history.Sorted evLE

/-! ### Concrete fixtures -/

/-- A company principal. -/
def pCo : Principal := ⟨7, "company"⟩

/-- A client principal unrelated to any shipment. -/
def pCl : Principal := ⟨99, "client"⟩

/-- A fully-populated create request. -/
def bodyA : CreateBody :=
  { customer_name := some "Alice", customer_phone := some "0100", customer_email := none
    origin := some "Cairo", destination := some "Giza", service_type := some "express"
    weight := some 250, cost := some 5000, notes := none }

/-- The same request with a negative weight. -/
def bodyNegW : CreateBody := { bodyA with weight := some (-5) }

/-- A create request with every field absent. -/
def bodyNone : CreateBody :=
  { customer_name := none, customer_phone := none, customer_email := none, origin := none
    destination := none, service_type := none, weight := none, cost := none, notes := none }

/-- A status-update request whose body carries no `status` field. -/
def bodyNoStatus : UpdateBody :=
  { status := none, location := some "Giza Depot", notes := some "left at door" }

/-- A well-formed status-update request. -/
def bodyUpd : UpdateBody :=
  { status := some "delivered", location := some "Giza Depot", notes := some "left at door" }

/-- Store state after one successful creation by `pCo`. -/
def db1 : DB := (createShipment initDB pCo bodyA true).2

/-! ### Equations for the handler branches -/

theorem createShipment_missing {b : CreateBody} (db : DB) (p : Principal) (hOk : Bool)
    (hm : missingRequired b = true) : createShipment db p b hOk = (.serverError, db) := by
  simp [createShipment, hm]

theorem createShipment_collision {db : DB} {b : CreateBody} (p : Principal) (hOk : Bool)
    (hm : missingRequired b = false) (hc : hasTracking db (genTracking db.now) = true) :
    createShipment db p b hOk = (.serverError, db) := by
  simp [createShipment, hm, hc]

theorem createShipment_success {db : DB} {b : CreateBody} (p : Principal)
    (hm : missingRequired b = false) (hc : hasTracking db (genTracking db.now) = false) :
    createShipment db p b true =
      (.created (newShipment db p b),
        { shipments := db.shipments ++ [newShipment db p b]
          status_history := db.status_history ++ [initialEvent db p b]
          nextShipmentId := db.nextShipmentId + 1
          nextEventId := db.nextEventId + 1
          now := db.now }) := by
  simp [createShipment, hm, hc]

theorem createShipment_nohistory {db : DB} {b : CreateBody} (p : Principal)
    (hm : missingRequired b = false) (hc : hasTracking db (genTracking db.now) = false) :
    createShipment db p b false =
      (.serverError,
        { shipments := db.shipments ++ [newShipment db p b]
          status_history := db.status_history
          nextShipmentId := db.nextShipmentId + 1
          nextEventId := db.nextEventId
          now := db.now }) := by
  simp [createShipment, hm, hc]

theorem updateStatus_notFound {db : DB} {sid : Nat} (p : Principal) (b : UpdateBody)
    (hOk : Bool) (hf : db.shipments.find? (fun s => s.id == sid) = none) :
    updateShipmentStatus db p sid b hOk = (.notFound, db) := by
  simp [updateShipmentStatus, hf]

theorem updateStatus_ok_eq {db : DB} {sid : Nat} {b : UpdateBody} (p : Principal)
    {s0 : Shipment} (hf : db.shipments.find? (fun s => s.id == sid) = some s0)
    {st : String} (hst : b.status = some st) :
    updateShipmentStatus db p sid b true =
      (.ok,
        { shipments := db.shipments.map (updRow db.now sid b)
          status_history := db.status_history ++ [updEvent db p sid st b]
          nextShipmentId := db.nextShipmentId
          nextEventId := db.nextEventId + 1
          now := db.now }) := by
  simp [updateShipmentStatus, hf, hst]

theorem updateStatus_nostatus {db : DB} {sid : Nat} {b : UpdateBody} (p : Principal)
    (hOk : Bool) {s0 : Shipment} (hf : db.shipments.find? (fun s => s.id == sid) = some s0)
    (hst : b.status = none) :
    updateShipmentStatus db p sid b hOk =
      (.serverError,
        { shipments := db.shipments.map (updRow db.now sid b)
          status_history := db.status_history
          nextShipmentId := db.nextShipmentId
          nextEventId := db.nextEventId
          now := db.now }) := by
  cases hOk <;> simp [updateShipmentStatus, hf, hst]

theorem updateStatus_nohistory {db : DB} {sid : Nat} {b : UpdateBody} (p : Principal)
    {s0 : Shipment} (hf : db.shipments.find? (fun s => s.id == sid) = some s0)
    {st : String} (hst : b.status = some st) :
    updateShipmentStatus db p sid b false =
      (.serverError,
        { shipments := db.shipments.map (updRow db.now sid b)
          status_history := db.status_history
          nextShipmentId := db.nextShipmentId
          nextEventId := db.nextEventId
          now := db.now }) := by
  simp [updateShipmentStatus, hf, hst]

/-! ### Small facts about rows and predicates -/

theorem updRow_id (n sid : Nat) (b : UpdateBody) (s : Shipment) :
    (updRow n sid b s).id = s.id := by
  unfold updRow; split <;> rfl

theorem updRow_tn (n sid : Nat) (b : UpdateBody) (s : Shipment) :
    (updRow n sid b s).tracking_number = s.tracking_number := by
  unfold updRow; split <;> rfl

theorem updRow_created (n sid : Nat) (b : UpdateBody) (s : Shipment) :
    (updRow n sid b s).created_at = s.created_at := by
  unfold updRow; split <;> rfl

theorem updRow_updated_le {n : Nat} (sid : Nat) (b : UpdateBody) {s : Shipment}
    (hs : s.updated_at ≤ n) : (updRow n sid b s).updated_at ≤ n := by
  unfold updRow; split
  · exact Nat.le_refl n
  · exact hs

theorem hasTracking_false {db : DB} {tn : String} (h : hasTracking db tn = false) :
    ∀ s ∈ db.shipments, s.tracking_number ≠ tn := by
  intro s hs
  simp only [hasTracking, List.any_eq_false, beq_iff_eq] at h
  exact h s hs

theorem pairwise_append_singleton {α : Type} {R : α → α → Prop} {l : List α} {a : α}
    (h1 : l.Pairwise R) (h2 : ∀ x ∈ l, R x a) : (l ++ [a]).Pairwise R :=
  List.pairwise_append.mpr
    ⟨h1, List.pairwise_singleton R a, fun x hx y hy => by
      rcases List.mem_singleton.mp hy with rfl
      exact h2 x hx⟩

/-! ### Preservation of the store invariants -/

theorem wf_create (db : DB) (p : Principal) (b : CreateBody) (hOk : Bool) (h : WF db) :
    WF (createShipment db p b hOk).2 := by
  cases hm : missingRequired b with
  | true => rw [createShipment_missing db p hOk hm]; exact h
  | false =>
  cases hc : hasTracking db (genTracking db.now) with
  | true => rw [createShipment_collision p hOk hm hc]; exact h
  | false =>
  cases hOk with
  | true =>
    rw [createShipment_success p hm hc]
    refine ⟨?_, ?_, ?_, ?_, ?_, ?_, ?_⟩
    · intro s hs
      rcases List.mem_append.mp hs with hs | hs
      · exact Nat.lt_succ_of_lt (h.ids_lt s hs)
      · rcases List.mem_singleton.mp hs with rfl
        exact Nat.lt_succ_self _
    · exact pairwise_append_singleton h.ids_distinct
        fun x hx => Nat.ne_of_lt (h.ids_lt x hx)
    · exact pairwise_append_singleton h.tns_distinct
        fun x hx => hasTracking_false hc x hx
    · intro s hs
      rcases List.mem_append.mp hs with hs | hs
      · exact h.ship_time s hs
      · rcases List.mem_singleton.mp hs with rfl
        exact ⟨Nat.le_refl _, Nat.le_refl _⟩
    · intro e he
      rcases List.mem_append.mp he with he | he
      · exact Nat.lt_succ_of_lt (h.ev_sid_lt e he)
      · rcases List.mem_singleton.mp he with rfl
        exact Nat.lt_succ_self _
    · intro e he
      rcases List.mem_append.mp he with he | he
      · exact h.ev_time e he
      · rcases List.mem_singleton.mp he with rfl
        exact Nat.le_refl _
    · exact pairwise_append_singleton h.hist_sorted fun x hx => h.ev_time x hx
  | false =>
    rw [createShipment_nohistory p hm hc]
    refine ⟨?_, ?_, ?_, ?_, ?_, ?_, ?_⟩
    · intro s hs
      rcases List.mem_append.mp hs with hs | hs
      · exact Nat.lt_succ_of_lt (h.ids_lt s hs)
      · rcases List.mem_singleton.mp hs with rfl
        exact Nat.lt_succ_self _
    · exact pairwise_append_singleton h.ids_distinct
        fun x hx => Nat.ne_of_lt (h.ids_lt x hx)
    · exact pairwise_append_singleton h.tns_distinct
        fun x hx => hasTracking_false hc x hx
    · intro s hs
      rcases List.mem_append.mp hs with hs | hs
      · exact h.ship_time s hs
      · rcases List.mem_singleton.mp hs with rfl
        exact ⟨Nat.le_refl _, Nat.le_refl _⟩
    · intro e he
      exact Nat.lt_succ_of_lt (h.ev_sid_lt e he)
    · exact h.ev_time
    · exact h.hist_sorted

theorem wf_update_rows (db : DB) (sid : Nat) (b : UpdateBody) (h : WF db) :
    (∀ s ∈ db.shipments.map (updRow db.now sid b), s.id < db.nextShipmentId) ∧
    ((db.shipments.map (updRow db.now sid b)).Pairwise fun a b => a.id ≠ b.id) ∧
    ((db.shipments.map (updRow db.now sid b)).Pairwise
      fun a b => a.tracking_number ≠ b.tracking_number) ∧
    (∀ s ∈ db.shipments.map (updRow db.now sid b),
      s.created_at ≤ db.now ∧ s.updated_at ≤ db.now) := by
  refine ⟨?_, ?_, ?_, ?_⟩
  · intro s hs
    rcases List.mem_map.mp hs with ⟨x, hx, rfl⟩
    rw [updRow_id]
    exact h.ids_lt x hx
  · exact List.pairwise_map.mpr (h.ids_distinct.imp fun hab => by
      rw [updRow_id, updRow_id]; exact hab)
  · exact List.pairwise_map.mpr (h.tns_distinct.imp fun hab => by
      rw [updRow_tn, updRow_tn]; exact hab)
  · intro s hs
    rcases List.mem_map.mp hs with ⟨x, hx, rfl⟩
    rw [updRow_created]
    exact ⟨(h.ship_time x hx).1, updRow_updated_le sid b (h.ship_time x hx).2⟩

theorem wf_update (db : DB) (p : Principal) (sid : Nat) (b : UpdateBody) (hOk : Bool)
    (h : WF db) : WF (updateShipmentStatus db p sid b hOk).2 := by
  cases hf : db.shipments.find? (fun s => s.id == sid) with
  | none => rw [updateStatus_notFound p b hOk hf]; exact h
  | some s0 =>
    have hsid : sid < db.nextShipmentId := by
      have h1 := List.find?_some hf
      have h2 : s0 ∈ db.shipments := List.mem_of_find?_eq_some hf
      have h3 : s0.id = sid := by simpa using h1
      rw [← h3]
      exact h.ids_lt s0 h2
    obtain ⟨hl1, hl2, hl3, hl4⟩ := wf_update_rows db sid b h
    cases hb : b.status with
    | none =>
      rw [updateStatus_nostatus p hOk hf hb]
      exact ⟨hl1, hl2, hl3, hl4, h.ev_sid_lt, h.ev_time, h.hist_sorted⟩
    | some st =>
      cases hOk with
      | false =>
        rw [updateStatus_nohistory p hf hb]
        exact ⟨hl1, hl2, hl3, hl4, h.ev_sid_lt, h.ev_time, h.hist_sorted⟩
      | true =>
        rw [updateStatus_ok_eq p hf hb]
        refine ⟨hl1, hl2, hl3, hl4, ?_, ?_, ?_⟩
        · intro e he
          rcases List.mem_append.mp he with he | he
          · exact h.ev_sid_lt e he
          · rcases List.mem_singleton.mp he with rfl
            exact hsid
        · intro e he
          rcases List.mem_append.mp he with he | he
          · exact h.ev_time e he
          · rcases List.mem_singleton.mp he with rfl
            exact Nat.le_refl _
        · exact pairwise_append_singleton h.hist_sorted fun x hx => h.ev_time x hx

theorem wf_tick (db : DB) (d : Nat) (h : WF db) : WF (tick db d) := by
  refine ⟨h.ids_lt, h.ids_distinct, h.tns_distinct, ?_, h.ev_sid_lt, ?_, h.hist_sorted⟩
  · intro s hs
    exact ⟨Nat.le_trans (h.ship_time s hs).1 (Nat.le_add_right _ _),
      Nat.le_trans (h.ship_time s hs).2 (Nat.le_add_right _ _)⟩
  · intro e he
    exact Nat.le_trans (h.ev_time e he) (Nat.le_add_right _ _)

/-- Every reachable store state satisfies the invariants. -/
theorem reachable_wf {db : DB} (h : Reachable db) : WF db := by
  induction h with
  | init =>
    refine ⟨?_, ?_, ?_, ?_, ?_, ?_, ?_⟩ <;> simp [initDB]
  | step _ hs ih =>
    cases hs with
    | create p b hOk => exact wf_create _ p b hOk ih
    | update p sid b hOk => exact wf_update _ p sid b hOk ih
    | advance d => exact wf_tick _ d ih

theorem reachable_db1 : Reachable db1 :=
  Reachable.step Reachable.init (Step.create initDB pCo bodyA true)

/-! ### History listing -/

theorem listFor_eq_filter {db : DB} (h : WF db) (sid : Nat) :
    listFor db sid = db.status_history.filter fun e => e.shipment_id == sid :=
  List.Sorted.insertionSort_eq (List.Pairwise.filter _ h.hist_sorted)

theorem listFor_append_event {db : DB} (h : WF db) (e : StatusEvent) (sid : Nat)
    (hsid : e.shipment_id = sid) (htime : e.created_at = db.now)
    (db' : DB) (hdb : db'.status_history = db.status_history ++ [e]) :
    listFor db' sid = listFor db sid ++ [e] := by
  unfold listFor
  rw [hdb, List.filter_append]
  have h1 : List.filter (fun x => x.shipment_id == sid) [e] = [e] := by simp [hsid]
  rw [h1]
  have hsf : ((db.status_history.filter fun x => x.shipment_id == sid)).Sorted evLE :=
    List.Pairwise.filter _ h.hist_sorted
  have hsorted :
      ((db.status_history.filter fun x => x.shipment_id == sid) ++ [e]).Sorted evLE :=
    pairwise_append_singleton hsf fun x hx => by
      have hx' := h.ev_time x (List.mem_of_mem_filter hx)
      show x.created_at ≤ e.created_at
      rw [htime]
      exact hx'
  rw [List.Sorted.insertionSort_eq hsorted, List.Sorted.insertionSort_eq hsf]

theorem listFor_new_id {db : DB} (h : WF db) (e : StatusEvent) (db' : DB)
    (hdb : db'.status_history = db.status_history ++ [e])
    (hsid : e.shipment_id = db.nextShipmentId) :
    listFor db' db.nextShipmentId = [e] := by
  unfold listFor
  rw [hdb, List.filter_append]
  have h0 : db.status_history.filter (fun x => x.shipment_id == db.nextShipmentId) = [] := by
    apply List.filter_eq_nil_iff.mpr
    intro x hx
    simp only [beq_iff_eq]
    exact Nat.ne_of_lt (h.ev_sid_lt x hx)
  rw [h0]
  simp [hsid, List.insertionSort, List.orderedInsert]

/-! ### Lookup by id and by tracking number -/

theorem find?_id_self {l : List Shipment} (hp : l.Pairwise fun a b => a.id ≠ b.id)
    {s : Shipment} (hs : s ∈ l) : l.find? (fun x => x.id == s.id) = some s := by
  induction l with
  | nil => cases hs
  | cons a t ih =>
    rcases List.mem_cons.mp hs with rfl | hs'
    · exact List.find?_cons_of_pos _ (by simp)
    · have hne : a.id ≠ s.id := (List.pairwise_cons.mp hp).1 s hs'
      rw [List.find?_cons_of_neg _ (by simp [hne])]
      exact ih (List.pairwise_cons.mp hp).2 hs'

theorem find?_tn_self {l : List Shipment}
    (hp : l.Pairwise fun a b => a.tracking_number ≠ b.tracking_number)
    {s : Shipment} (hs : s ∈ l) :
    l.find? (fun x => x.tracking_number == s.tracking_number) = some s := by
  induction l with
  | nil => cases hs
  | cons a t ih =>
    rcases List.mem_cons.mp hs with rfl | hs'
    · exact List.find?_cons_of_pos _ (by simp)
    · have hne : a.tracking_number ≠ s.tracking_number := (List.pairwise_cons.mp hp).1 s hs'
      rw [List.find?_cons_of_neg _ (by simp [hne])]
      exact ih (List.pairwise_cons.mp hp).2 hs'

/-! ### Rows survive every request with id and tracking number intact -/

theorem step_rows_persist {db db' : DB} (hs : Step db db') :
    ∀ s ∈ db.shipments, ∃ s' ∈ db'.shipments,
      s'.id = s.id ∧ s'.tracking_number = s.tracking_number := by
  cases hs with
  | create p b hOk =>
    intro s hs0
    refine ⟨s, ?_, rfl, rfl⟩
    cases hm : missingRequired b with
    | true => rw [createShipment_missing db p hOk hm]; exact hs0
    | false =>
      cases hc : hasTracking db (genTracking db.now) with
      | true => rw [createShipment_collision p hOk hm hc]; exact hs0
      | false =>
        cases hOk with
        | true =>
          rw [createShipment_success p hm hc]
          exact List.mem_append_left _ hs0
        | false =>
          rw [createShipment_nohistory p hm hc]
          exact List.mem_append_left _ hs0
  | update p sid b hOk =>
    intro s hs0
    cases hf : db.shipments.find? (fun x => x.id == sid) with
    | none =>
      rw [updateStatus_notFound p b hOk hf]
      exact ⟨s, hs0, rfl, rfl⟩
    | some s0 =>
      refine ⟨updRow db.now sid b s, ?_, updRow_id _ _ _ _, updRow_tn _ _ _ _⟩
      cases hb : b.status with
      | none =>
        rw [updateStatus_nostatus p hOk hf hb]
        exact List.mem_map_of_mem _ hs0
      | some st =>
        cases hOk with
        | true =>
          rw [updateStatus_ok_eq p hf hb]
          exact List.mem_map_of_mem _ hs0
        | false =>
          rw [updateStatus_nohistory p hf hb]
          exact List.mem_map_of_mem _ hs0
  | advance d =>
    intro s hs0
    exact ⟨s, hs0, rfl, rfl⟩

/-! ### Claims -/

/-- C1: the claim asserts that the shipment-row write and the history append
are applied atomically, with no reachable state where one took effect without
the other.  The code runs them as two separate statements with no transaction,
and the claim fails on it: updating shipment 1 with a body that has no
`status` field rewrites the row (`status` cleared, `current_location` set)
while the history INSERT violates the NOT NULL constraint and nothing is
appended, so the reachable state after the 500 response holds a mutated row
with an unchanged history. -/
theorem update_not_atomic :
    (updateShipmentStatus db1 pCl 1 bodyNoStatus true).1 = UpdateResult.serverError ∧
    (updateShipmentStatus db1 pCl 1 bodyNoStatus true).2.status_history = db1.status_history ∧
    (updateShipmentStatus db1 pCl 1 bodyNoStatus true).2.shipments.map
        (fun s => (s.status, s.current_location))
      = [((none : Option String), some "Giza Depot")] ∧
    db1.shipments.map (fun s => (s.status, s.current_location))
      = [(some "received", (none : Option String))] := by
  decide

/-- C2, counterexample: a create request whose weight is negative does not
fail with a validation error and does write rows — the shipment is created
normally with the negative weight stored. -/
theorem create_accepts_negative_weight :
    (createShipment initDB pCo bodyNegW true).1 ≠ CreateResult.serverError ∧
    (createShipment initDB pCo bodyNegW true).2.shipments.map Shipment.weight
      = [(-5 : Int)] ∧
    (createShipment initDB pCo bodyNegW true).2.status_history.length = 1 := by
  decide

/-- C2, amended: createShipment performs no input validation.  A request
missing a required field fails only through the store's NOT NULL constraint,
surfaced as an opaque server error with no shipment row and no StatusEvent
written; any request with all required fields present (weight and cost
values unrestricted) is inserted whenever the tracking number is fresh. -/
theorem create_no_validation :
    (∀ (db : DB) (p : Principal) (b : CreateBody) (hOk : Bool),
      missingRequired b = true → createShipment db p b hOk = (.serverError, db)) ∧
    (∀ (db : DB) (p : Principal) (b : CreateBody),
      missingRequired b = false → hasTracking db (genTracking db.now) = false →
      (createShipment db p b true).1 = .created (newShipment db p b)) := by
  constructor
  · intro db p b hOk hm
    exact createShipment_missing db p hOk hm
  · intro db p b hm hc
    rw [createShipment_success p hm hc]

theorem create_no_validation_witness :
    createShipment initDB pCo bodyNone true = (.serverError, initDB) ∧
    (createShipment initDB pCo bodyNegW true).1 = .created (newShipment initDB pCo bodyNegW) :=
  ⟨create_no_validation.1 initDB pCo bodyNone true (by decide),
   create_no_validation.2 initDB pCo bodyNegW (by decide) (by decide)⟩

/-- C3, counterexample: a second create issued at the same clock instant as
the first collides on the tracking number and the handler surfaces the
opaque server error at once, leaving the store exactly as it was — no
regeneration, no retry, and no distinct conflict error. -/
theorem create_collision_no_retry :
    createShipment db1 pCo bodyA true = (.serverError, db1) := by
  decide

/-- C3, amended: on a tracking-number uniqueness violation createShipment
makes no retry and no regeneration; the single insertion attempt's failure is
surfaced immediately as the opaque server error with the store unchanged.
Because the tracking number is a deterministic function of the clock, a
second create at the same instant as a successful one always collides. -/
theorem create_collision_immediate_error :
    (∀ (db : DB) (p : Principal) (b : CreateBody) (hOk : Bool),
      missingRequired b = false → hasTracking db (genTracking db.now) = true →
      createShipment db p b hOk = (.serverError, db)) ∧
    (∀ (db : DB) (p q : Principal) (a b : CreateBody) (hOk : Bool),
      missingRequired a = false → missingRequired b = false →
      hasTracking db (genTracking db.now) = false →
      createShipment (createShipment db p a true).2 q b hOk
        = (.serverError, (createShipment db p a true).2)) := by
  constructor
  · intro db p b hOk hm hc
    exact createShipment_collision p hOk hm hc
  · intro db p q a b hOk hma hmb hc
    rw [createShipment_success p hma hc]
    apply createShipment_collision q hOk hmb
    simp only [hasTracking, List.any_eq_true, List.mem_append, List.mem_singleton]
    exact ⟨newShipment db p a, Or.inr rfl, by simp [newShipment]⟩

theorem create_collision_immediate_error_witness :
    createShipment (createShipment initDB pCo bodyA true).2 pCl bodyNegW true
      = (.serverError, (createShipment initDB pCo bodyA true).2) :=
  create_collision_immediate_error.2 initDB pCo pCl bodyA bodyNegW true
    (by decide) (by decide) (by decide)

/-- C4: in every reachable store state the tracking numbers of the stored
shipments are pairwise distinct, and every request preserves each existing
row together with its id and tracking number, so a tracking number issued to
a created shipment is never lost or reassigned across the lifetime of the
store. -/
theorem tracking_numbers_unique (db : DB) (hr : Reachable db) :
    (db.shipments.Pairwise fun a b => a.tracking_number ≠ b.tracking_number) ∧
    (∀ db', Step db db' → ∀ s ∈ db.shipments, ∃ s' ∈ db'.shipments,
      s'.id = s.id ∧ s'.tracking_number = s.tracking_number) :=
  ⟨(reachable_wf hr).tns_distinct, fun _ hs => step_rows_persist hs⟩

theorem tracking_numbers_unique_witness :
    (db1.shipments.Pairwise fun a b => a.tracking_number ≠ b.tracking_number) ∧
    (∀ db', Step db1 db' → ∀ s ∈ db1.shipments, ∃ s' ∈ db'.shipments,
      s'.id = s.id ∧ s'.tracking_number = s.tracking_number) :=
  tracking_numbers_unique db1 reachable_db1

/-- C5: listShipments returns exactly the rows with `company_id = p.id` for a
company principal, exactly the rows with `driver_id = p.id` for a driver
principal, and the full table for any other role. -/
theorem listShipments_visibility (db : DB) (p : Principal) (s : Shipment) :
    s ∈ listShipments db p ↔
      s ∈ db.shipments ∧ (p.type = "company" → s.company_id = some p.userId) ∧
        (p.type = "driver" → s.driver_id = some p.userId) := by
  unfold listShipments
  rw [List.mem_insertionSort]
  by_cases h1 : p.type = "company"
  · have h2 : p.type ≠ "driver" := by rw [h1]; decide
    simp [h1, h2, List.mem_filter]
  · by_cases h2 : p.type = "driver"
    · simp [h1, h2, List.mem_filter]
    · simp [h1, h2]

theorem listShipments_visibility_witness :
    newShipment initDB pCo bodyA ∈ listShipments db1 pCo ↔
      newShipment initDB pCo bodyA ∈ db1.shipments ∧
        (pCo.type = "company" → (newShipment initDB pCo bodyA).company_id = some pCo.userId) ∧
        (pCo.type = "driver" → (newShipment initDB pCo bodyA).driver_id = some pCo.userId) :=
  listShipments_visibility db1 pCo (newShipment initDB pCo bodyA)

/-- C6: a successful creation leaves the new shipment with status `received`
and a status history holding exactly one event, whose status is `received`. -/
theorem create_initial_received (db : DB) (p : Principal) (b : CreateBody) (hOk : Bool)
    (hr : Reachable db) (s : Shipment)
    (hc : (createShipment db p b hOk).1 = .created s) :
    s.status = some "received" ∧
    (listFor (createShipment db p b hOk).2 s.id).map StatusEvent.status = ["received"] := by
  have hwf := reachable_wf hr
  cases hm : missingRequired b with
  | true =>
    rw [createShipment_missing db p hOk hm] at hc
    simp at hc
  | false =>
  cases hc2 : hasTracking db (genTracking db.now) with
  | true =>
    rw [createShipment_collision p hOk hm hc2] at hc
    simp at hc
  | false =>
  cases hOk with
  | false =>
    rw [createShipment_nohistory p hm hc2] at hc
    simp at hc
  | true =>
    have hres : (createShipment db p b true).1 = .created (newShipment db p b) := by
      rw [createShipment_success p hm hc2]
    have hstate : (createShipment db p b true).2 =
        { shipments := db.shipments ++ [newShipment db p b]
          status_history := db.status_history ++ [initialEvent db p b]
          nextShipmentId := db.nextShipmentId + 1
          nextEventId := db.nextEventId + 1
          now := db.now } := by
      rw [createShipment_success p hm hc2]
    rw [hres] at hc
    simp only [CreateResult.created.injEq] at hc
    subst hc
    refine ⟨rfl, ?_⟩
    have hid : (newShipment db p b).id = db.nextShipmentId := rfl
    rw [hstate, hid, listFor_new_id hwf (initialEvent db p b) _ rfl rfl]
    rfl

theorem create_initial_received_witness :
    (newShipment initDB pCo bodyA).status = some "received" ∧
    (listFor (createShipment initDB pCo bodyA true).2 (newShipment initDB pCo bodyA).id).map
        StatusEvent.status = ["received"] :=
  create_initial_received initDB pCo bodyA true Reachable.init
    (newShipment initDB pCo bodyA) (by decide)

/-- C7: a successful status update lengthens the shipment's history by
exactly one, the appended last event carries the update's status, location
and notes, and the row's `updated_at` does not decrease. -/
theorem updateStatus_effects (db : DB) (p : Principal) (sid : Nat) (b : UpdateBody)
    (hOk : Bool) (hr : Reachable db)
    (h : (updateShipmentStatus db p sid b hOk).1 = .ok) :
    (listFor (updateShipmentStatus db p sid b hOk).2 sid).length
        = (listFor db sid).length + 1 ∧
    (∃ e, (listFor (updateShipmentStatus db p sid b hOk).2 sid).getLast? = some e ∧
      b.status = some e.status ∧ e.location = b.location ∧ e.notes = b.notes) ∧
    (∀ s ∈ db.shipments, s.id = sid →
      ∀ s' ∈ (updateShipmentStatus db p sid b hOk).2.shipments, s'.id = sid →
        s.updated_at ≤ s'.updated_at) := by
  have hwf := reachable_wf hr
  cases hf : db.shipments.find? (fun x => x.id == sid) with
  | none =>
    rw [updateStatus_notFound p b hOk hf] at h
    simp at h
  | some s0 =>
    cases hb : b.status with
    | none =>
      rw [updateStatus_nostatus p hOk hf hb] at h
      simp at h
    | some st =>
      cases hOk with
      | false =>
        rw [updateStatus_nohistory p hf hb] at h
        simp at h
      | true =>
        have hstate : (updateShipmentStatus db p sid b true).2 =
            { shipments := db.shipments.map (updRow db.now sid b)
              status_history := db.status_history ++ [updEvent db p sid st b]
              nextShipmentId := db.nextShipmentId
              nextEventId := db.nextEventId + 1
              now := db.now } := by
          rw [updateStatus_ok_eq p hf hb]
        have hl := listFor_append_event hwf (updEvent db p sid st b) sid rfl rfl
          { shipments := db.shipments.map (updRow db.now sid b)
            status_history := db.status_history ++ [updEvent db p sid st b]
            nextShipmentId := db.nextShipmentId
            nextEventId := db.nextEventId + 1
            now := db.now } rfl
        refine ⟨?_, ?_, ?_⟩
        · rw [hstate, hl]
          simp
        · refine ⟨updEvent db p sid st b, ?_, ?_, rfl, rfl⟩
          · rw [hstate, hl]
            exact List.getLast?_concat _
          · rfl
        · intro s hs hid s' hs' hid'
          rw [hstate] at hs'
          rcases List.mem_map.mp hs' with ⟨x, hx, rfl⟩
          have hxid : x.id = sid := by
            rw [← updRow_id db.now sid b x]
            exact hid'
          have hupd : (updRow db.now sid b x).updated_at = db.now := by
            simp [updRow, hxid]
          rw [hupd]
          exact (hwf.ship_time s hs).2

theorem updateStatus_effects_witness :
    (listFor (updateShipmentStatus db1 pCo 1 bodyUpd true).2 1).length
        = (listFor db1 1).length + 1 ∧
    (∃ e, (listFor (updateShipmentStatus db1 pCo 1 bodyUpd true).2 1).getLast? = some e ∧
      bodyUpd.status = some e.status ∧ e.location = bodyUpd.location ∧
      e.notes = bodyUpd.notes) ∧
    (∀ s ∈ db1.shipments, s.id = 1 →
      ∀ s' ∈ (updateShipmentStatus db1 pCo 1 bodyUpd true).2.shipments, s'.id = 1 →
        s.updated_at ≤ s'.updated_at) :=
  updateStatus_effects db1 pCo 1 bodyUpd true reachable_db1 (by decide)

/-- C8: looking a stored shipment up publicly by its tracking number yields
the same row and attached ordered history as looking it up by id. -/
theorem track_get_roundtrip (db : DB) (s : Shipment) (hr : Reachable db)
    (hs : s ∈ db.shipments) :
    trackShipment db s.tracking_number = getShipment db s.id := by
  have h := reachable_wf hr
  unfold trackShipment getShipment
  rw [find?_id_self h.ids_distinct hs, find?_tn_self h.tns_distinct hs]

theorem track_get_roundtrip_witness :
    trackShipment db1 (newShipment initDB pCo bodyA).tracking_number
      = getShipment db1 (newShipment initDB pCo bodyA).id :=
  track_get_roundtrip db1 (newShipment initDB pCo bodyA) reachable_db1 (by decide)

/-- C9: the history attached by getShipment and by trackShipment is ordered
by `created_at` ascending, while the shipment listing is ordered by
`created_at` descending — chronological history, newest-first listing. -/
theorem histories_chronological :
    (∀ (db : DB) (sid : Nat) (r : TrackedShipment),
      getShipment db sid = some r → r.status_history.Sorted evLE) ∧
    (∀ (db : DB) (tn : String) (r : TrackedShipment),
      trackShipment db tn = some r → r.status_history.Sorted evLE) ∧
    (∀ (db : DB) (p : Principal), (listShipments db p).Sorted shipGE) := by
  refine ⟨?_, ?_, ?_⟩
  · intro db sid r h
    cases hf : db.shipments.find? (fun s => s.id == sid) with
    | none => simp [getShipment, hf] at h
    | some s =>
      simp only [getShipment, hf, Option.some.injEq] at h
      subst h
      exact List.sorted_insertionSort evLE _
  · intro db tn r h
    cases hf : db.shipments.find? (fun s => s.tracking_number == tn) with
    | none => simp [trackShipment, hf] at h
    | some s =>
      simp only [trackShipment, hf, Option.some.injEq] at h
      subst h
      exact List.sorted_insertionSort evLE _
  · intro db p
    unfold listShipments
    exact List.sorted_insertionSort shipGE _

theorem histories_chronological_witness :
    (listShipments db1 pCo).Sorted shipGE ∧
    (∃ r, getShipment db1 1 = some r ∧ r.status_history.Sorted evLE) ∧
    (∃ r, trackShipment db1 "SH0" = some r ∧ r.status_history.Sorted evLE) :=
  ⟨histories_chronological.2.2 db1 pCo,
   ⟨⟨newShipment initDB pCo bodyA, [initialEvent initDB pCo bodyA]⟩, by decide,
     histories_chronological.1 db1 1 _ (by decide)⟩,
   ⟨⟨newShipment initDB pCo bodyA, [initialEvent initDB pCo bodyA]⟩, by decide,
     histories_chronological.2.1 db1 "SH0" _ (by decide)⟩⟩

/-- C10: the status-update handler checks neither role nor ownership: any
authenticated principal can update any existing shipment, and the appended
event records that principal's id as `updated_by`. -/
theorem updateStatus_no_ownership_check (db : DB) (p : Principal) (sid : Nat)
    (b : UpdateBody) (st : String) (hr : Reachable db)
    (hex : ∃ s ∈ db.shipments, s.id = sid) (hst : b.status = some st) :
    (updateShipmentStatus db p sid b true).1 = .ok ∧
    (∃ e, (listFor (updateShipmentStatus db p sid b true).2 sid).getLast? = some e ∧
      e.status = st ∧ e.updated_by = some p.userId) := by
  have hwf := reachable_wf hr
  obtain ⟨s, hs, hid⟩ := hex
  have hfs : (db.shipments.find? (fun x => x.id == sid)).isSome :=
    List.find?_isSome.mpr ⟨s, hs, by simp [hid]⟩
  obtain ⟨s0, hf⟩ := Option.isSome_iff_exists.mp hfs
  have hres : (updateShipmentStatus db p sid b true).1 = .ok := by
    rw [updateStatus_ok_eq p hf hst]
  have hstate : (updateShipmentStatus db p sid b true).2 =
      { shipments := db.shipments.map (updRow db.now sid b)
        status_history := db.status_history ++ [updEvent db p sid st b]
        nextShipmentId := db.nextShipmentId
        nextEventId := db.nextEventId + 1
        now := db.now } := by
    rw [updateStatus_ok_eq p hf hst]
  refine ⟨hres, updEvent db p sid st b, ?_, rfl, rfl⟩
  rw [hstate, listFor_append_event hwf (updEvent db p sid st b) sid rfl rfl _ rfl]
  exact List.getLast?_concat _

theorem updateStatus_no_ownership_check_witness :
    (updateShipmentStatus db1 pCl 1 bodyUpd true).1 = .ok ∧
    (∃ e, (listFor (updateShipmentStatus db1 pCl 1 bodyUpd true).2 1).getLast? = some e ∧
      e.status = "delivered" ∧ e.updated_by = some pCl.userId) :=
  updateStatus_no_ownership_check db1 pCl 1 bodyUpd "delivered" reachable_db1
    ⟨newShipment initDB pCo bodyA, by decide, by decide⟩ (by decide)

end Logistics
